import Mathlib

/-
Verification of the Ferrous CHIP-8 / SuperCHIP interpreter core.

This file contains a shallow embedding of the interpreter state and of the
instruction semantics found in ferrous-core/src/cpu.rs, together with
theorems checking the documented behaviour of the core.

Modelling conventions:
- Fixed Rust arrays (memory, stack, register, vram, keypad, flag_regs) are
  modelled as total functions from Nat; every Rust indexing or slicing site
  whose index is not bounded by construction is guarded explicitly, and an
  operation that would panic in Rust returns none.
- Machine integers are Nat with explicit wrap: u8 arithmetic is mod 256,
  the u16 mask 0xFFFF is mod 65536.
- The random byte consumed by opcode Cxkk is passed in as an explicit
  parameter, since the source draws it from an unconstrained generator.
-/

/-- Pointwise update of a function-modelled array cell. -/
def updW (f : Nat → Nat) (k v : Nat) : Nat → Nat :=
  fun a => if a = k then v else f a

/-- The interpreter state, one field per field of the Rust struct CPU. -/
structure CPU where
  memory : Nat → Nat
  stack : Nat → Nat
  register : Nat → Nat
  pc : Nat
  sp : Nat
  i : Nat
  dt : Nat
  st : Nat
  vram : Nat → Nat
  keypad : Nat → Bool
  is_highres : Bool
  is_halted : Bool
  load_store_quirk : Bool
  shift_quirk : Bool
  jump_quirk : Bool
  flag_regs : Nat → Nat

/-- (rows, cols) of the active resolution mode. -/
def get_height_width (s : CPU) : Nat × Nat :=
  if s.is_highres then (64, 128) else (32, 64)

/-- Reset the interpreter; clears memory from 0x200 up, registers, pc, sp,
I, timers, vram, keypad, halt and resolution flags.  Stack contents, the
reserved memory below 0x200, quirks and RPL flag registers are untouched. -/
def reset (s : CPU) : CPU :=
  { s with
    memory := fun a => if 0x200 ≤ a then 0 else s.memory a
    register := fun _ => 0
    pc := 0x200
    sp := 0
    i := 0
    dt := 0
    st := 0
    vram := fun _ => 0
    keypad := fun _ => false
    is_halted := false
    is_highres := false }

/-- Outcome of load_rom, mirroring Result<(), String>. -/
inductive RomResult where
  | ok : RomResult
  | err : RomResult
deriving DecidableEq

/-- Load a ROM buffer at 0x200; rejected without mutation when longer than
3584 bytes. -/
def load_rom (s : CPU) (buffer : List Nat) : RomResult × CPU :=
  if 3584 < buffer.length then (RomResult.err, s)
  else
    (RomResult.ok,
      { s with
        memory := fun a =>
          if 0x200 ≤ a ∧ a < 0x200 + buffer.length then buffer.getD (a - 0x200) 0
          else s.memory a })

/-- Decrement each timer if non-zero. -/
def step_timers (s : CPU) : CPU :=
  { s with
    dt := if 0 < s.dt then s.dt - 1 else s.dt
    st := if 0 < s.st then s.st - 1 else s.st }

/-- 00E0 - CLS. -/
def op_00e0 (s : CPU) : CPU :=
  { s with vram := fun _ => 0 }

/-- 00EE - RET; pops the stack (pointer underflow or out-of-range slot is a
panic in the source, modelled as none). -/
def op_00ee (s : CPU) : Option CPU :=
  if 1 ≤ s.sp ∧ s.sp ≤ 16 then
    some { s with sp := s.sp - 1, pc := s.stack (s.sp - 1) }
  else none

/-- 1nnn - JP addr. -/
def op_1nnn (s : CPU) (nnn : Nat) : CPU :=
  { s with pc := nnn }

/-- 2nnn - CALL addr; pushes pc (as u16) then jumps; a full stack panics. -/
def op_2nnn (s : CPU) (nnn : Nat) : Option CPU :=
  if s.sp < 16 then
    some { s with stack := updW s.stack s.sp (s.pc % 65536), sp := s.sp + 1, pc := nnn }
  else none

/-- 3xkk - SE Vx, byte. -/
def op_3xkk (s : CPU) (x kk : Nat) : CPU :=
  if s.register x = kk then { s with pc := s.pc + 2 } else s

/-- 4xkk - SNE Vx, byte. -/
def op_4xkk (s : CPU) (x kk : Nat) : CPU :=
  if s.register x ≠ kk then { s with pc := s.pc + 2 } else s

/-- 5xy0 - SE Vx, Vy. -/
def op_5xy0 (s : CPU) (x y : Nat) : CPU :=
  if s.register x = s.register y then { s with pc := s.pc + 2 } else s

/-- 6xkk - LD Vx, byte. -/
def op_6xkk (s : CPU) (x kk : Nat) : CPU :=
  { s with register := updW s.register x kk }

/-- 7xkk - ADD Vx, byte (wrapping u8 add). -/
def op_7xkk (s : CPU) (x kk : Nat) : CPU :=
  { s with register := updW s.register x ((s.register x + kk) % 256) }

/-- 8xy0 - LD Vx, Vy. -/
def op_8xy0 (s : CPU) (x y : Nat) : CPU :=
  { s with register := updW s.register x (s.register y) }

/-- 8xy1 - OR Vx, Vy. -/
def op_8xy1 (s : CPU) (x y : Nat) : CPU :=
  { s with register := updW s.register x (s.register x ||| s.register y) }

/-- 8xy2 - AND Vx, Vy. -/
def op_8xy2 (s : CPU) (x y : Nat) : CPU :=
  { s with register := updW s.register x (s.register x &&& s.register y) }

/-- 8xy3 - XOR Vx, Vy. -/
def op_8xy3 (s : CPU) (x y : Nat) : CPU :=
  { s with register := updW s.register x (s.register x ^^^ s.register y) }

/-- 8xy4 - ADD Vx, Vy with carry; the result is stored to Vx first, the
carry flag to VF afterwards. -/
def op_8xy4 (s : CPU) (x y : Nat) : CPU :=
  let sum := s.register x + s.register y
  let s1 := { s with register := updW s.register x (sum % 256) }
  { s1 with register := updW s1.register 0xF (if 256 ≤ sum then 1 else 0) }

/-- 8xy5 - SUB Vx, Vy; result first, then VF = NOT borrow. -/
def op_8xy5 (s : CPU) (x y : Nat) : CPU :=
  let borrow := s.register x < s.register y
  let diff := (s.register x + 256 - s.register y) % 256
  let s1 := { s with register := updW s.register x diff }
  { s1 with register := updW s1.register 0xF (if borrow then 0 else 1) }

/-- 8xy6 - SHR; under the shift quirk the operand register is x itself.
The flag is written first, then the shifted value is read back from the
(possibly just overwritten) operand register and stored to Vx. -/
def op_8xy6 (s : CPU) (x y : Nat) : CPU :=
  let yy := if s.shift_quirk then x else y
  let s1 := { s with register := updW s.register 0xF (s.register yy &&& 1) }
  { s1 with register := updW s1.register x (s1.register yy / 2) }

/-- 8xy7 - SUBN Vx, Vy; result first, then VF = NOT borrow. -/
def op_8xy7 (s : CPU) (x y : Nat) : CPU :=
  let borrow := s.register y < s.register x
  let diff := (s.register y + 256 - s.register x) % 256
  let s1 := { s with register := updW s.register x diff }
  { s1 with register := updW s1.register 0xF (if borrow then 0 else 1) }

/-- 8xyE - SHL; flag (bit 7) first, then the wrapping left shift. -/
def op_8xye (s : CPU) (x y : Nat) : CPU :=
  let yy := if s.shift_quirk then x else y
  let s1 := { s with register := updW s.register 0xF ((s.register yy &&& 0x80) >>> 7) }
  { s1 with register := updW s1.register x (s1.register yy * 2 % 256) }

/-- 9xy0 - SNE Vx, Vy. -/
def op_9xy0 (s : CPU) (x y : Nat) : CPU :=
  if s.register x ≠ s.register y then { s with pc := s.pc + 2 } else s

/-- Annn - LD I, addr. -/
def op_annn (s : CPU) (nnn : Nat) : CPU :=
  { s with i := nnn }

/-- Bnnn - JP V0, addr; under the jump quirk the register is selected by
the high nibble of nnn. -/
def op_bnnn (s : CPU) (nnn : Nat) : CPU :=
  if s.jump_quirk then
    { s with pc := nnn + s.register ((nnn >>> 8) &&& 0xF) }
  else
    { s with pc := nnn + s.register 0 }

/-- Cxkk - RND Vx, byte; the random byte is an explicit parameter. -/
def op_cxkk (s : CPU) (x kk rng : Nat) : CPU :=
  { s with register := updW s.register x (rng % 256 &&& kk) }

/-- Ex9E - SKP Vx; the keypad index is the value of Vx, out of range is a
panic. -/
def op_ex9e (s : CPU) (x : Nat) : Option CPU :=
  if s.register x < 16 then
    some (if s.keypad (s.register x) then { s with pc := s.pc + 2 } else s)
  else none

/-- ExA1 - SKNP Vx. -/
def op_exa1 (s : CPU) (x : Nat) : Option CPU :=
  if s.register x < 16 then
    some (if s.keypad (s.register x) then s else { s with pc := s.pc + 2 })
  else none

/-- Fx07 - LD Vx, DT. -/
def op_fx07 (s : CPU) (x : Nat) : CPU :=
  { s with register := updW s.register x s.dt }

/-- First pressed key index, scanning 0 to 15. -/
def firstKey (keypad : Nat → Bool) : Option Nat :=
  (List.range 16).find? (fun k => keypad k)

/-- Fx0A - LD Vx, K; stores the first pressed key, otherwise rewinds pc by
2 (a pc below 2 would underflow in the source). -/
def op_fx0a (s : CPU) (x : Nat) : Option CPU :=
  match firstKey s.keypad with
  | some k => some { s with register := updW s.register x k }
  | none => if 2 ≤ s.pc then some { s with pc := s.pc - 2 } else none

/-- Fx15 - LD DT, Vx. -/
def op_fx15 (s : CPU) (x : Nat) : CPU :=
  { s with dt := s.register x }

/-- Fx18 - LD ST, Vx. -/
def op_fx18 (s : CPU) (x : Nat) : CPU :=
  { s with st := s.register x }

/-- Fx1E - ADD I, Vx; a plain usize addition in the source, no mask. -/
def op_fx1e (s : CPU) (x : Nat) : CPU :=
  { s with i := s.i + s.register x }

/-- Fx29 - LD F, Vx; low-res digit sprite address. -/
def op_fx29 (s : CPU) (x : Nat) : CPU :=
  { s with i := s.register x * 5 }

/-- Fx30 - LD HF, Vx; high-res digit sprite address. -/
def op_fx30 (s : CPU) (x : Nat) : CPU :=
  { s with i := s.register x * 10 + 80 }

/-- Fx33 - BCD store at I, I+1, I+2; unchecked in the source, an end past
memory is a panic. -/
def op_fx33 (s : CPU) (x : Nat) : Option CPU :=
  if s.i + 2 < 4096 then
    let v := s.register x
    some { s with
      memory :=
        updW (updW (updW s.memory s.i (v / 100)) (s.i + 1) (v % 100 / 10)) (s.i + 2) (v % 10) }
  else none

/-- Fx55 - block store of V0..Vx at I; the slice is unchecked in the
source; unless the load/store quirk is set, I is then advanced and masked
to 16 bits. -/
def op_fx55 (s : CPU) (x : Nat) : Option CPU :=
  if x < 16 ∧ s.i + x < 4096 then
    some { s with
      memory := fun a => if s.i ≤ a ∧ a ≤ s.i + x then s.register (a - s.i) else s.memory a
      i := if s.load_store_quirk then s.i else (s.i + x + 1) % 65536 }
  else none

/-- Fx65 - block load of V0..Vx from I; same bounds and quirk behaviour as
Fx55. -/
def op_fx65 (s : CPU) (x : Nat) : Option CPU :=
  if x < 16 ∧ s.i + x < 4096 then
    some { s with
      register := fun a => if a ≤ x then s.memory (s.i + a) else s.register a
      i := if s.load_store_quirk then s.i else (s.i + x + 1) % 65536 }
  else none

/-- Fx75 - copy V0..Vx into the RPL flag registers; x above 7 overruns the
8-byte file and panics. -/
def op_fx75 (s : CPU) (x : Nat) : Option CPU :=
  if x < 8 then
    some { s with flag_regs := fun a => if a ≤ x then s.register a else s.flag_regs a }
  else none

/-- Fx85 - copy the RPL flag registers into V0..Vx. -/
def op_fx85 (s : CPU) (x : Nat) : Option CPU :=
  if x < 8 then
    some { s with register := fun a => if a ≤ x then s.flag_regs a else s.register a }
  else none

/-- 00Cn - SCD; scroll down n lines, zero-filling the top. -/
def op_00cn (s : CPU) (n : Nat) : Option CPU :=
  let rc := get_height_width s
  let rows := rc.1
  let cols := rc.2
  if n ≤ rows then
    some { s with
      vram := fun a =>
        if a < cols * n then 0
        else if a < cols * rows then s.vram (a - cols * n)
        else s.vram a }
  else none

/-- 00FB - SCR; scroll right 4 pixels per row. -/
def op_00fb (s : CPU) : CPU :=
  let rc := get_height_width s
  let rows := rc.1
  let cols := rc.2
  { s with
    vram := fun a =>
      if a < cols * rows then
        if a % cols < 4 then 0 else s.vram (a - 4)
      else s.vram a }

/-- 00FC - SCL; scroll left 4 pixels per row. -/
def op_00fc (s : CPU) : CPU :=
  let rc := get_height_width s
  let rows := rc.1
  let cols := rc.2
  { s with
    vram := fun a =>
      if a < cols * rows then
        if cols - 4 ≤ a % cols then 0 else s.vram (a + 4)
      else s.vram a }

/-- 00FD - EXIT; sets the halted flag. -/
def op_00fd (s : CPU) : CPU :=
  { s with is_halted := true }

/-- 00FE - LOW; leave extended mode and clear the screen. -/
def op_00fe (s : CPU) : CPU :=
  op_00e0 { s with is_highres := false }

/-- 00FF - HIGH; enter extended mode and clear the screen. -/
def op_00ff (s : CPU) : CPU :=
  op_00e0 { s with is_highres := true }

/-- One sprite bit of a Dxyn row: if bit c of the row byte is set, XOR the
pixel at the wrapped coordinates, recording a collision when the pixel was
on.  The threaded pair is (vram, collision flag). -/
def drawBit (byte cols yrow x : Nat) (st : (Nat → Nat) × Nat) (c : Nat) :
    (Nat → Nat) × Nat :=
  if byte &&& (0x80 >>> c) ≠ 0 then
    let idx := (x + c) % cols + yrow * cols
    (updW st.1 idx (st.1 idx ^^^ 1), if st.1 idx = 1 then 1 else st.2)
  else st

/-- The first k columns of one Dxyn sprite row, in ascending order. -/
def drawCols (byte cols yrow x : Nat) : Nat → (Nat → Nat) × Nat → (Nat → Nat) × Nat
  | 0, st => st
  | Nat.succ k, st => drawBit byte cols yrow x (drawCols byte cols yrow x k st) k

/-- The 8 columns of one Dxyn sprite row. -/
def drawRowPixels (byte cols yrow x : Nat) (st : (Nat → Nat) × Nat) :
    (Nat → Nat) × Nat :=
  drawCols byte cols yrow x 8 st

/-- The first n rows of a Dxyn sprite, in order; a sprite byte read past
memory is a panic (none). -/
def drawRows (mem : Nat → Nat) (base cols rows x y : Nat) :
    Nat → (Nat → Nat) × Nat → Option ((Nat → Nat) × Nat)
  | 0, st => some st
  | Nat.succ k, st =>
    match drawRows mem base cols rows x y k st with
    | none => none
    | some st1 =>
      if base + k < 4096 then
        some (drawRowPixels (mem (base + k)) cols ((y + k) % rows) x st1)
      else none

/-- One 16-wide row of the SuperCHIP 16x16 sprite (Dxy0): the byte address
depends on the half of the row, each read is bounds checked. -/
def drawCols16 (mem : Nat → Nat) (base cols yrow x r : Nat) :
    Nat → (Nat → Nat) × Nat → Option ((Nat → Nat) × Nat)
  | 0, st => some st
  | Nat.succ k, st =>
    match drawCols16 mem base cols yrow x r k st with
    | none => none
    | some st1 =>
      let addr := base + r * 2 + (if 7 < k then 1 else 0)
      if addr < 4096 then
        some
          (if mem addr &&& (0x80 >>> (k % 8)) ≠ 0 then
            (updW st1.1 ((x + k) % cols + yrow * cols)
              (st1.1 ((x + k) % cols + yrow * cols) ^^^ 1),
             if st1.1 ((x + k) % cols + yrow * cols) = 1 then 1 else st1.2)
          else st1)
      else none

/-- The 16 rows of the SuperCHIP 16x16 sprite. -/
def drawRows16 (mem : Nat → Nat) (base cols rows x y : Nat) :
    Nat → (Nat → Nat) × Nat → Option ((Nat → Nat) × Nat)
  | 0, st => some st
  | Nat.succ k, st =>
    match drawRows16 mem base cols rows x y k st with
    | none => none
    | some st1 => drawCols16 mem base cols ((y + k) % rows) x k 16 st1

/-- Dxyn - DRW; the start coordinates are the raw register values, with
per-pixel wrap against the active resolution; VF is reset then set to 1 on
any collision; n = 0 draws the 16x16 SuperCHIP sprite. -/
def op_dxyn (s : CPU) (vx vy n : Nat) : Option CPU :=
  let rc := get_height_width s
  let rows := rc.1
  let cols := rc.2
  let x := s.register vx
  let y := s.register vy
  if n = 0 then
    Option.map
      (fun st : (Nat → Nat) × Nat =>
        { s with vram := st.1, register := updW s.register 0xF st.2 })
      (drawRows16 s.memory s.i cols rows x y 16 (s.vram, 0))
  else
    Option.map
      (fun st : (Nat → Nat) × Nat =>
        { s with vram := st.1, register := updW s.register 0xF st.2 })
      (drawRows s.memory s.i cols rows x y n (s.vram, 0))

/-- Decoded instruction: one constructor per arm of the dispatch match of
execute_cycle, plus one for the no-match arm. -/
inductive Instr where
  | i00cn (n : Nat)
  | i00e0
  | i00ee
  | i00fb
  | i00fc
  | i00fd
  | i00fe
  | i00ff
  | i1nnn (nnn : Nat)
  | i2nnn (nnn : Nat)
  | i3xkk (x kk : Nat)
  | i4xkk (x kk : Nat)
  | i5xy0 (x y : Nat)
  | i6xkk (x kk : Nat)
  | i7xkk (x kk : Nat)
  | i8xy0 (x y : Nat)
  | i8xy1 (x y : Nat)
  | i8xy2 (x y : Nat)
  | i8xy3 (x y : Nat)
  | i8xy4 (x y : Nat)
  | i8xy5 (x y : Nat)
  | i8xy6 (x y : Nat)
  | i8xy7 (x y : Nat)
  | i8xye (x y : Nat)
  | i9xy0 (x y : Nat)
  | iannn (nnn : Nat)
  | ibnnn (nnn : Nat)
  | icxkk (x kk : Nat)
  | idxyn (x y n : Nat)
  | iex9e (x : Nat)
  | iexa1 (x : Nat)
  | ifx07 (x : Nat)
  | ifx0a (x : Nat)
  | ifx15 (x : Nat)
  | ifx18 (x : Nat)
  | ifx1e (x : Nat)
  | ifx29 (x : Nat)
  | ifx30 (x : Nat)
  | ifx33 (x : Nat)
  | ifx55 (x : Nat)
  | ifx65 (x : Nat)
  | ifx75 (x : Nat)
  | ifx85 (x : Nat)
  | unknown
deriving DecidableEq

/-- Split the fetched word into four nibbles and select the operation, in
the order of the dispatch match of the source. -/
def decode (op : Nat) : Instr :=
  let n1 := (op >>> 12) &&& 0xF
  let n2 := (op >>> 8) &&& 0xF
  let n3 := (op >>> 4) &&& 0xF
  let n4 := op &&& 0xF
  let x := n2
  let y := n3
  let kk := op &&& 0xFF
  let nnn := op &&& 0xFFF
  match n1, n2, n3, n4 with
  | 0x0, 0x0, 0xC, n => Instr.i00cn n
  | 0x0, 0x0, 0xE, 0x0 => Instr.i00e0
  | 0x0, 0x0, 0xE, 0xE => Instr.i00ee
  | 0x0, 0x0, 0xF, 0xB => Instr.i00fb
  | 0x0, 0x0, 0xF, 0xC => Instr.i00fc
  | 0x0, 0x0, 0xF, 0xD => Instr.i00fd
  | 0x0, 0x0, 0xF, 0xE => Instr.i00fe
  | 0x0, 0x0, 0xF, 0xF => Instr.i00ff
  | 0x1, _, _, _ => Instr.i1nnn nnn
  | 0x2, _, _, _ => Instr.i2nnn nnn
  | 0x3, _, _, _ => Instr.i3xkk x kk
  | 0x4, _, _, _ => Instr.i4xkk x kk
  | 0x5, _, _, 0 => Instr.i5xy0 x y
  | 0x6, _, _, _ => Instr.i6xkk x kk
  | 0x7, _, _, _ => Instr.i7xkk x kk
  | 0x8, _, _, 0x0 => Instr.i8xy0 x y
  | 0x8, _, _, 0x1 => Instr.i8xy1 x y
  | 0x8, _, _, 0x2 => Instr.i8xy2 x y
  | 0x8, _, _, 0x3 => Instr.i8xy3 x y
  | 0x8, _, _, 0x4 => Instr.i8xy4 x y
  | 0x8, _, _, 0x5 => Instr.i8xy5 x y
  | 0x8, _, _, 0x6 => Instr.i8xy6 x y
  | 0x8, _, _, 0x7 => Instr.i8xy7 x y
  | 0x8, _, _, 0xE => Instr.i8xye x y
  | 0x9, _, _, 0 => Instr.i9xy0 x y
  | 0xA, _, _, _ => Instr.iannn nnn
  | 0xB, _, _, _ => Instr.ibnnn nnn
  | 0xC, _, _, _ => Instr.icxkk x kk
  | 0xD, _, _, _ => Instr.idxyn x y n4
  | 0xE, _, 0x9, 0xE => Instr.iex9e x
  | 0xE, _, 0xA, 0x1 => Instr.iexa1 x
  | 0xF, _, 0x0, 0x7 => Instr.ifx07 x
  | 0xF, _, 0x0, 0xA => Instr.ifx0a x
  | 0xF, _, 0x1, 0x5 => Instr.ifx15 x
  | 0xF, _, 0x1, 0x8 => Instr.ifx18 x
  | 0xF, _, 0x1, 0xE => Instr.ifx1e x
  | 0xF, _, 0x2, 0x9 => Instr.ifx29 x
  | 0xF, _, 0x3, 0x0 => Instr.ifx30 x
  | 0xF, _, 0x3, 0x3 => Instr.ifx33 x
  | 0xF, _, 0x5, 0x5 => Instr.ifx55 x
  | 0xF, _, 0x6, 0x5 => Instr.ifx65 x
  | 0xF, _, 0x7, 0x5 => Instr.ifx75 x
  | 0xF, _, 0x8, 0x5 => Instr.ifx85 x
  | _, _, _, _ => Instr.unknown

/-- Execute one decoded instruction on the post-fetch state. -/
def exec (ins : Instr) (s : CPU) (rng : Nat) : Option CPU :=
  match ins with
  | Instr.i00cn n => op_00cn s n
  | Instr.i00e0 => some (op_00e0 s)
  | Instr.i00ee => op_00ee s
  | Instr.i00fb => some (op_00fb s)
  | Instr.i00fc => some (op_00fc s)
  | Instr.i00fd => some (op_00fd s)
  | Instr.i00fe => some (op_00fe s)
  | Instr.i00ff => some (op_00ff s)
  | Instr.i1nnn nnn => some (op_1nnn s nnn)
  | Instr.i2nnn nnn => op_2nnn s nnn
  | Instr.i3xkk x kk => some (op_3xkk s x kk)
  | Instr.i4xkk x kk => some (op_4xkk s x kk)
  | Instr.i5xy0 x y => some (op_5xy0 s x y)
  | Instr.i6xkk x kk => some (op_6xkk s x kk)
  | Instr.i7xkk x kk => some (op_7xkk s x kk)
  | Instr.i8xy0 x y => some (op_8xy0 s x y)
  | Instr.i8xy1 x y => some (op_8xy1 s x y)
  | Instr.i8xy2 x y => some (op_8xy2 s x y)
  | Instr.i8xy3 x y => some (op_8xy3 s x y)
  | Instr.i8xy4 x y => some (op_8xy4 s x y)
  | Instr.i8xy5 x y => some (op_8xy5 s x y)
  | Instr.i8xy6 x y => some (op_8xy6 s x y)
  | Instr.i8xy7 x y => some (op_8xy7 s x y)
  | Instr.i8xye x y => some (op_8xye s x y)
  | Instr.i9xy0 x y => some (op_9xy0 s x y)
  | Instr.iannn nnn => some (op_annn s nnn)
  | Instr.ibnnn nnn => some (op_bnnn s nnn)
  | Instr.icxkk x kk => some (op_cxkk s x kk rng)
  | Instr.idxyn x y n => op_dxyn s x y n
  | Instr.iex9e x => op_ex9e s x
  | Instr.iexa1 x => op_exa1 s x
  | Instr.ifx07 x => some (op_fx07 s x)
  | Instr.ifx0a x => op_fx0a s x
  | Instr.ifx15 x => some (op_fx15 s x)
  | Instr.ifx18 x => some (op_fx18 s x)
  | Instr.ifx1e x => some (op_fx1e s x)
  | Instr.ifx29 x => some (op_fx29 s x)
  | Instr.ifx30 x => some (op_fx30 s x)
  | Instr.ifx33 x => op_fx33 s x
  | Instr.ifx55 x => op_fx55 s x
  | Instr.ifx65 x => op_fx65 s x
  | Instr.ifx75 x => op_fx75 s x
  | Instr.ifx85 x => op_fx85 s x
  | Instr.unknown => some s

/-- The big-endian word at pc. -/
def fetch_opcode (s : CPU) : Nat :=
  s.memory s.pc * 256 + s.memory (s.pc + 1)

/-- One fetch-decode-execute cycle.  Result none is a panic; otherwise the
new state is paired with the return value of the source function: none
when halted or when the opcode is unknown, the fetched word otherwise. -/
def execute_cycle (s : CPU) (rng : Nat) : Option (CPU × Option Nat) :=
  if s.is_halted then some (s, none)
  else if s.pc + 1 < 4096 then
    let opcode := fetch_opcode s
    let s1 := { s with pc := s.pc + 2 }
    match decode opcode with
    | Instr.unknown => some (s1, none)
    | ins => Option.map (fun s2 => (s2, some opcode)) (exec ins s1 rng)
  else none

/-
Concrete states used by the witness and counterexample theorems.
-/

/-- A bare machine state: zeroed arrays, pc at 0x200, all flags off. -/
def cpu0 : CPU :=
  { memory := fun _ => 0
    stack := fun _ => 0
    register := fun _ => 0
    pc := 0x200
    sp := 0
    i := 0
    dt := 0
    st := 0
    vram := fun _ => 0
    keypad := fun _ => false
    is_highres := false
    is_halted := false
    load_store_quirk := false
    shift_quirk := false
    jump_quirk := false
    flag_regs := fun _ => 0 }

/-- A state whose next instruction word is 0x5001, which no dispatch arm
recognizes. -/
def cpuUnknown : CPU :=
  { cpu0 with memory := fun a => if a = 0x200 then 0x50 else if a = 0x201 then 1 else 0 }

/-- A state with VF = 3 and the shift quirk off. -/
def cpuShift : CPU :=
  { cpu0 with register := fun a => if a = 0xF then 3 else 0 }

/-- A state with V2 = 0b1010_0001. -/
def cpuShiftW : CPU :=
  { cpu0 with register := fun a => if a = 2 then 161 else 0 }

/-- A halted state. -/
def cpuHalted : CPU :=
  { cpu0 with is_halted := true }

/-- A state with a non-zero saved return address in stack slot 0. -/
def cpuStack : CPU :=
  { cpu0 with stack := fun a => if a = 0 then 5 else 0 }

/-- A state with I = 0xFFFF and every register 1. -/
def cpuIdx : CPU :=
  { cpu0 with i := 0xFFFF, register := fun _ => 1 }

/-- A state with I = 4095, the last memory address. -/
def cpuOob : CPU :=
  { cpu0 with i := 4095 }

/-- A state with VF = 200 and V0 = 100. -/
def cpuCarry : CPU :=
  { cpu0 with register := fun a => if a = 0xF then 200 else if a = 0 then 100 else 0 }

/-- A low-res state with V0 = 63, V1 = 0, all-ones sprite data and I in
bounds. -/
def cpuDraw : CPU :=
  { cpu0 with
    register := fun a => if a = 0 then 63 else 0
    memory := fun _ => 0xFF
    i := 0x300 }

/-- A state whose memory is all ones, so the sprite at I is 0xFF. -/
def cpuFill : CPU :=
  { cpu0 with memory := fun _ => 0xFF }

/-
Claim theorems.
-/

/-- Claim C1: a buffer of at most 3584 bytes is copied into memory at
0x200 with every other field unchanged and the load reports success; a
longer buffer is rejected with the state completely unchanged. -/
theorem load_rom_spec (s : CPU) (b : List Nat) :
    (b.length ≤ 3584 →
      ∃ s2, load_rom s b = (RomResult.ok, s2) ∧
        (∀ a, s2.memory a =
          if 0x200 ≤ a ∧ a < 0x200 + b.length then b.getD (a - 0x200) 0 else s.memory a) ∧
        s2.stack = s.stack ∧ s2.register = s.register ∧ s2.pc = s.pc ∧ s2.sp = s.sp ∧
        s2.i = s.i ∧ s2.dt = s.dt ∧ s2.st = s.st ∧ s2.vram = s.vram ∧
        s2.keypad = s.keypad ∧ s2.is_highres = s.is_highres ∧ s2.is_halted = s.is_halted ∧
        s2.load_store_quirk = s.load_store_quirk ∧ s2.shift_quirk = s.shift_quirk ∧
        s2.jump_quirk = s.jump_quirk ∧ s2.flag_regs = s.flag_regs) ∧
    (3584 < b.length → load_rom s b = (RomResult.err, s)) := by
  constructor
  · intro h
    rw [load_rom, if_neg (by omega)]
    exact ⟨_, rfl, fun a => rfl, rfl, rfl, rfl, rfl, rfl, rfl, rfl, rfl, rfl, rfl, rfl,
      rfl, rfl, rfl, rfl⟩
  · intro h
    rw [load_rom, if_pos h]

theorem load_rom_spec_witness :
    3584 < (List.replicate 3585 (0 : Nat)).length ∧
    load_rom cpu0 (List.replicate 3585 (0 : Nat)) = (RomResult.err, cpu0) :=
  ⟨by rw [List.length_replicate]; omega,
    (load_rom_spec cpu0 (List.replicate 3585 0)).2 (by rw [List.length_replicate]; omega)⟩

/-- Claim C2: in a non-halted state whose fetch is in bounds, an
unrecognized instruction word leaves every field unchanged except pc,
which advances by exactly 2, does not panic, and returns the no-opcode
signal to the caller. -/
theorem execute_cycle_unknown_noop (s : CPU) (rng : Nat) (h1 : s.is_halted = false)
    (h2 : s.pc + 1 < 4096) (h3 : decode (fetch_opcode s) = Instr.unknown) :
    execute_cycle s rng = some ({ s with pc := s.pc + 2 }, none) := by
  rw [execute_cycle]
  simp only [h1, Bool.false_eq_true, if_false, h2, if_true, h3]

theorem execute_cycle_unknown_noop_witness :
    cpuUnknown.is_halted = false ∧ cpuUnknown.pc + 1 < 4096 ∧
    decode (fetch_opcode cpuUnknown) = Instr.unknown ∧
    execute_cycle cpuUnknown 0 = some ({ cpuUnknown with pc := cpuUnknown.pc + 2 }, none) :=
  ⟨rfl, by decide, by decide,
    execute_cycle_unknown_noop cpuUnknown 0 rfl (by decide) (by decide)⟩

/-- Claim C3 counterexample: with the shift quirk off and y = 0xF, SHR
does not store Vy shifted right into Vx: the flag write to VF happens
first, so the shift reads the freshly written flag.  Here VF = 3, and the
claim predicts V0 = 1 while the code stores 0. -/
theorem shr_flag_order_counterexample :
    cpuShift.shift_quirk = false ∧ cpuShift.register 0xF = 3 ∧
    (op_8xy6 cpuShift 0 0xF).register 0 = 0 ∧
    (op_8xy6 cpuShift 0 0xF).register 0 ≠ cpuShift.register 0xF / 2 := by
  refine ⟨rfl, rfl, rfl, ?_⟩
  decide

/-- Claim C3 as amended: for x different from 0xF and, when the quirk is
off, y different from 0xF, SHR sets VF to bit 0 of the selected operand
register and stores that register shifted right by one into Vx; SHL
behaves analogously with bit 7. -/
theorem shift_quirk_semantics (s : CPU) (x y : Nat) (hx : x ≠ 0xF)
    (hy : s.shift_quirk = false → y ≠ 0xF) :
    ((op_8xy6 s x y).register 0xF = s.register (if s.shift_quirk then x else y) &&& 1 ∧
     (op_8xy6 s x y).register x = s.register (if s.shift_quirk then x else y) / 2) ∧
    ((op_8xye s x y).register 0xF = (s.register (if s.shift_quirk then x else y) &&& 0x80) >>> 7 ∧
     (op_8xye s x y).register x = s.register (if s.shift_quirk then x else y) * 2 % 256) := by
  cases hq : s.shift_quirk with
  | false =>
    have hy2 := hy hq
    refine ⟨⟨?_, ?_⟩, ?_, ?_⟩ <;>
      simp [op_8xy6, op_8xye, updW, hq, hy2, hx, Ne.symm hx]
  | true =>
    refine ⟨⟨?_, ?_⟩, ?_, ?_⟩ <;>
      simp [op_8xy6, op_8xye, updW, hq, hx, Ne.symm hx]

theorem shift_quirk_semantics_witness :
    ((1 : Nat) ≠ 0xF) ∧ (cpuShiftW.shift_quirk = false → (2 : Nat) ≠ 0xF) ∧
    (((op_8xy6 cpuShiftW 1 2).register 0xF =
        cpuShiftW.register (if cpuShiftW.shift_quirk then 1 else 2) &&& 1 ∧
      (op_8xy6 cpuShiftW 1 2).register 1 =
        cpuShiftW.register (if cpuShiftW.shift_quirk then 1 else 2) / 2) ∧
     ((op_8xye cpuShiftW 1 2).register 0xF =
        (cpuShiftW.register (if cpuShiftW.shift_quirk then 1 else 2) &&& 0x80) >>> 7 ∧
      (op_8xye cpuShiftW 1 2).register 1 =
        cpuShiftW.register (if cpuShiftW.shift_quirk then 1 else 2) * 2 % 256)) :=
  ⟨by decide, fun _ => by decide,
    shift_quirk_semantics cpuShiftW 1 2 (by decide) (fun _ => by decide)⟩

/-- Claim C6: EXIT sets the halted flag; in a halted state a cycle call
returns immediately with the state untouched and no fetch result, and
reset clears the flag. -/
theorem halted_cycle_noop (s t : CPU) (rng : Nat) (h : s.is_halted = true) :
    (op_00fd t).is_halted = true ∧ execute_cycle s rng = some (s, none) ∧
    (reset s).is_halted = false := by
  refine ⟨rfl, ?_, rfl⟩
  rw [execute_cycle, if_pos h]

theorem halted_cycle_noop_witness :
    cpuHalted.is_halted = true ∧
    ((op_00fd cpu0).is_halted = true ∧ execute_cycle cpuHalted 0 = some (cpuHalted, none) ∧
     (reset cpuHalted).is_halted = false) :=
  ⟨rfl, halted_cycle_noop cpuHalted cpu0 0 rfl⟩

/-- Claim C7 counterexample: reset does not clear all state apart from the
quirks and the RPL flag registers: the contents of the return-address
stack survive a reset. -/
theorem reset_counterexample :
    (reset cpuStack).stack 0 = 5 ∧ (reset cpuStack).stack 0 ≠ 0 := by
  refine ⟨rfl, ?_⟩
  decide

/-- Claim C7 as amended: reset clears registers, stack pointer, I, both
timers, display, keypad, the halted flag and the resolution mode, restores
pc to 0x200 and zeroes memory from 0x200 up; it preserves the quirks, the
RPL flag registers, the reserved memory below 0x200 and the stack
contents. -/
theorem reset_spec (s : CPU) :
    (∀ a, (reset s).memory a = if 0x200 ≤ a then 0 else s.memory a) ∧
    (∀ a, (reset s).register a = 0) ∧
    (reset s).pc = 0x200 ∧ (reset s).sp = 0 ∧ (reset s).i = 0 ∧
    (reset s).dt = 0 ∧ (reset s).st = 0 ∧
    (∀ a, (reset s).vram a = 0) ∧ (∀ a, (reset s).keypad a = false) ∧
    (reset s).is_halted = false ∧ (reset s).is_highres = false ∧
    (reset s).load_store_quirk = s.load_store_quirk ∧
    (reset s).shift_quirk = s.shift_quirk ∧
    (reset s).jump_quirk = s.jump_quirk ∧
    (reset s).flag_regs = s.flag_regs ∧
    (reset s).stack = s.stack :=
  ⟨fun _ => rfl, fun _ => rfl, rfl, rfl, rfl, rfl, rfl, fun _ => rfl, fun _ => rfl,
    rfl, rfl, rfl, rfl, rfl, rfl, rfl⟩

/-- Claim C8 counterexample: Fx1E adds Vx to I without any 16-bit mask, so
from I = 0xFFFF and Vx = 1 the new I is 0x10000, not strictly below it. -/
theorem fx1e_overflow_counterexample :
    (op_fx1e cpuIdx 0).i = 0x10000 ∧ ¬ (op_fx1e cpuIdx 0).i < 0x10000 := by
  refine ⟨rfl, ?_⟩
  decide

/-- Claim C8 as amended: the Fx55/Fx65 post-increment of I is masked to 16
bits, so whenever those operations complete the new I is below 0x10000;
Fx1E however performs a plain unmasked addition I + Vx. -/
theorem index_arith_spec (s : CPU) (x : Nat) (h : s.load_store_quirk = false) :
    (op_fx1e s x).i = s.i + s.register x ∧
    (∀ s2, op_fx55 s x = some s2 → s2.i < 0x10000) ∧
    (∀ s2, op_fx65 s x = some s2 → s2.i < 0x10000) := by
  refine ⟨rfl, ?_, ?_⟩
  · intro s2 hs2
    rw [op_fx55] at hs2
    split at hs2
    · cases hs2
      simp only [h, Bool.false_eq_true, if_false]
      exact Nat.mod_lt _ (by norm_num)
    · cases hs2
  · intro s2 hs2
    rw [op_fx65] at hs2
    split at hs2
    · cases hs2
      simp only [h, Bool.false_eq_true, if_false]
      exact Nat.mod_lt _ (by norm_num)
    · cases hs2

theorem index_arith_spec_witness :
    cpu0.load_store_quirk = false ∧
    ((op_fx1e cpu0 0).i = cpu0.i + cpu0.register 0 ∧
     (∀ s2, op_fx55 cpu0 0 = some s2 → s2.i < 0x10000) ∧
     (∀ s2, op_fx65 cpu0 0 = some s2 → s2.i < 0x10000)) :=
  ⟨rfl, index_arith_spec cpu0 0 rfl⟩

/-- Claim C9: the source does not bounds-check the memory region ends
derived from I: from I = 4095 the two-register block store Fx55 and the
BCD store Fx33 run past the 4096-byte memory and panic (modelled here as
none) instead of clamping or rejecting gracefully. -/
theorem fx55_unchecked_oob :
    op_fx55 cpuOob 1 = none ∧ op_fx33 cpuOob 0 = none := by
  constructor <;> rfl

/-- Claim C10: for the ALU ops 8xy4, 8xy5 and 8xy7 the final VF is always
the carry or not-borrow flag, also when x = 0xF, because the flag is
stored after the result; for x different from 0xF the result lands in
Vx. -/
theorem arith_flag_order_spec (s : CPU) (x y : Nat) :
    ((op_8xy4 s x y).register 0xF = (if 256 ≤ s.register x + s.register y then 1 else 0) ∧
     (x ≠ 0xF → (op_8xy4 s x y).register x = (s.register x + s.register y) % 256)) ∧
    ((op_8xy5 s x y).register 0xF = (if s.register x < s.register y then 0 else 1) ∧
     (x ≠ 0xF → (op_8xy5 s x y).register x = (s.register x + 256 - s.register y) % 256)) ∧
    ((op_8xy7 s x y).register 0xF = (if s.register y < s.register x then 0 else 1) ∧
     (x ≠ 0xF → (op_8xy7 s x y).register x = (s.register y + 256 - s.register x) % 256)) := by
  refine ⟨⟨?_, fun hx => ?_⟩, ⟨?_, fun hx => ?_⟩, ⟨?_, fun hx => ?_⟩⟩
  · simp [op_8xy4, updW]
  · simp [op_8xy4, updW, hx, Ne.symm hx]
  · simp [op_8xy5, updW]
  · simp [op_8xy5, updW, hx, Ne.symm hx]
  · simp [op_8xy7, updW]
  · simp [op_8xy7, updW, hx, Ne.symm hx]

theorem arith_flag_order_spec_witness :
    (op_8xy4 cpuCarry 0xF 0).register 0xF =
      (if 256 ≤ cpuCarry.register 0xF + cpuCarry.register 0 then 1 else 0) ∧
    (if 256 ≤ cpuCarry.register 0xF + cpuCarry.register 0 then 1 else 0) = 1 :=
  ⟨(arith_flag_order_spec cpuCarry 0xF 0).1.1, by decide⟩

/-
Helper lemmas for the sprite drawing loops.
-/

/-- Cancellation of a common left summand under a common modulus. -/
theorem add_mod_inj (m a b1 b2 : Nat) (h1 : b1 < m) (h2 : b2 < m)
    (h : (a + b1) % m = (a + b2) % m) : b1 = b2 := by
  have h3 : b1 % m = b2 % m := Nat.ModEq.add_left_cancel' a h
  rwa [Nat.mod_eq_of_lt h1, Nat.mod_eq_of_lt h2] at h3

/-- A pixel index splits uniquely into its column and row parts. -/
theorem pix_decomp (cols p1 p2 y1 y2 : Nat) (hc : 0 < cols) (hp1 : p1 < cols)
    (hp2 : p2 < cols) (h : p1 + y1 * cols = p2 + y2 * cols) : p1 = p2 ∧ y1 = y2 := by
  have hm := congrArg (· % cols) h
  simp only [Nat.add_mul_mod_self_right] at hm
  rw [Nat.mod_eq_of_lt hp1, Nat.mod_eq_of_lt hp2] at hm
  refine ⟨hm, ?_⟩
  have h4 : y1 * cols = y2 * cols := by omega
  exact Nat.eq_of_mul_eq_mul_right hc h4

/-- Two sprite bits of one draw touch the same pixel index only if they
are the same bit. -/
theorem pixIdx_inj (cols x c1 c2 y1 y2 : Nat) (hcols : 8 ≤ cols)
    (hc1 : c1 < 8) (hc2 : c2 < 8)
    (h : (x + c1) % cols + y1 * cols = (x + c2) % cols + y2 * cols) :
    c1 = c2 ∧ y1 = y2 := by
  have hc : 0 < cols := by omega
  obtain ⟨he, hy⟩ := pix_decomp cols ((x + c1) % cols) ((x + c2) % cols) y1 y2 hc
    (Nat.mod_lt _ hc) (Nat.mod_lt _ hc) h
  exact ⟨add_mod_inj cols x c1 c2 (by omega) (by omega) he, hy⟩

/-- Splitting a bounded existential at its top index. -/
theorem exists_lt_succ_split (n : Nat) (P : Nat → Prop) :
    (∃ r, r < n + 1 ∧ P r) ↔ (∃ r, r < n ∧ P r) ∨ P n := by
  constructor
  · rintro ⟨r, hr, hp⟩
    rcases Nat.lt_succ_iff_lt_or_eq.mp hr with h | h
    · exact Or.inl ⟨r, h, hp⟩
    · subst h; exact Or.inr hp
  · rintro (⟨r, hr, hp⟩ | hp)
    · exact ⟨r, Nat.lt_succ_of_lt hr, hp⟩
    · exact ⟨n, Nat.lt_succ_self n, hp⟩


/-- Pointwise characterization of the first k columns of one sprite row:
at most one column can hit a given pixel index, so the pixel is XORed
exactly once when some set bit maps there and untouched otherwise, and
the collision flag becomes 1 exactly when a set bit lands on an initially
lit pixel. -/
theorem drawCols_spec (byte cols yrow x : Nat) (hcols : 8 ≤ cols) (k : Nat) (hk : k ≤ 8)
    (st : (Nat → Nat) × Nat) :
    (∀ idx,
      ((∃ c, c < k ∧ byte &&& (0x80 >>> c) ≠ 0 ∧ idx = (x + c) % cols + yrow * cols) →
        (drawCols byte cols yrow x k st).1 idx = st.1 idx ^^^ 1) ∧
      ((¬ ∃ c, c < k ∧ byte &&& (0x80 >>> c) ≠ 0 ∧ idx = (x + c) % cols + yrow * cols) →
        (drawCols byte cols yrow x k st).1 idx = st.1 idx)) ∧
    ((∃ c, c < k ∧ byte &&& (0x80 >>> c) ≠ 0 ∧ st.1 ((x + c) % cols + yrow * cols) = 1) →
      (drawCols byte cols yrow x k st).2 = 1) ∧
    ((¬ ∃ c, c < k ∧ byte &&& (0x80 >>> c) ≠ 0 ∧ st.1 ((x + c) % cols + yrow * cols) = 1) →
      (drawCols byte cols yrow x k st).2 = st.2) := by
  induction k with
  | zero =>
    refine ⟨fun idx => ⟨?_, fun _ => rfl⟩, ?_, fun _ => rfl⟩
    · rintro ⟨c, hc, h5⟩; omega
    · rintro ⟨c, hc, h5⟩; omega
  | succ k ih =>
    obtain ⟨ihv, ihfp, ihfn⟩ := ih (Nat.le_of_succ_le hk)
    have hnok : ¬ ∃ c, c < k ∧ byte &&& (0x80 >>> c) ≠ 0 ∧
        (x + k) % cols + yrow * cols = (x + c) % cols + yrow * cols := by
      rintro ⟨c, hc, hb2, heq⟩
      have h5 := (pixIdx_inj cols x k c yrow yrow hcols (by omega) (by omega) heq).1
      omega
    have hinner : (drawCols byte cols yrow x k st).1 ((x + k) % cols + yrow * cols) =
        st.1 ((x + k) % cols + yrow * cols) :=
      (ihv ((x + k) % cols + yrow * cols)).2 hnok
    rw [drawCols]
    by_cases hb : byte &&& (0x80 >>> k) ≠ 0
    · rw [drawBit, if_pos hb]
      refine ⟨fun idx => ⟨?_, ?_⟩, ?_, ?_⟩
      · rintro ⟨c, hc, hbc, hidx⟩
        show updW (drawCols byte cols yrow x k st).1 ((x + k) % cols + yrow * cols)
          ((drawCols byte cols yrow x k st).1 ((x + k) % cols + yrow * cols) ^^^ 1) idx
          = st.1 idx ^^^ 1
        rcases Nat.lt_succ_iff_lt_or_eq.mp hc with hck | hck
        · have hne : idx ≠ (x + k) % cols + yrow * cols := by
            intro heq
            exact hnok ⟨c, hck, hbc, heq ▸ hidx.symm ▸ rfl⟩
          rw [updW, if_neg hne]
          exact (ihv idx).1 ⟨c, hck, hbc, hidx⟩
        · subst hck
          rw [hidx, updW, if_pos rfl, hinner]
      · intro hnex
        show updW (drawCols byte cols yrow x k st).1 ((x + k) % cols + yrow * cols)
          ((drawCols byte cols yrow x k st).1 ((x + k) % cols + yrow * cols) ^^^ 1) idx
          = st.1 idx
        have hne : idx ≠ (x + k) % cols + yrow * cols := by
          intro heq
          exact hnex ⟨k, Nat.lt_succ_self k, hb, heq⟩
        rw [updW, if_neg hne]
        exact (ihv idx).2 fun ⟨c, hc, hbc, hidx⟩ =>
          hnex ⟨c, Nat.lt_succ_of_lt hc, hbc, hidx⟩
      · rintro ⟨c, hc, hbc, hp⟩
        show (if (drawCols byte cols yrow x k st).1 ((x + k) % cols + yrow * cols) = 1
          then 1 else (drawCols byte cols yrow x k st).2) = 1
        rcases Nat.lt_succ_iff_lt_or_eq.mp hc with hck | hck
        · by_cases hq : (drawCols byte cols yrow x k st).1
              ((x + k) % cols + yrow * cols) = 1
          · rw [if_pos hq]
          · rw [if_neg hq]
            exact ihfp ⟨c, hck, hbc, hp⟩
        · subst hck
          rw [hinner] at *
          rw [if_pos hp]
      · intro hnex
        show (if (drawCols byte cols yrow x k st).1 ((x + k) % cols + yrow * cols) = 1
          then 1 else (drawCols byte cols yrow x k st).2) = st.2
        have hp : ¬ st.1 ((x + k) % cols + yrow * cols) = 1 := fun hp =>
          hnex ⟨k, Nat.lt_succ_self k, hb, hp⟩
        rw [hinner, if_neg hp]
        exact ihfn fun ⟨c, hc, hbc, hp2⟩ => hnex ⟨c, Nat.lt_succ_of_lt hc, hbc, hp2⟩
    · rw [drawBit, if_neg hb]
      refine ⟨fun idx => ⟨?_, ?_⟩, ?_, ?_⟩
      · rintro ⟨c, hc, hbc, hidx⟩
        rcases Nat.lt_succ_iff_lt_or_eq.mp hc with hck | hck
        · exact (ihv idx).1 ⟨c, hck, hbc, hidx⟩
        · subst hck; exact absurd hbc hb
      · intro hnex
        exact (ihv idx).2 fun ⟨c, hc, hbc, hidx⟩ =>
          hnex ⟨c, Nat.lt_succ_of_lt hc, hbc, hidx⟩
      · rintro ⟨c, hc, hbc, hp⟩
        rcases Nat.lt_succ_iff_lt_or_eq.mp hc with hck | hck
        · exact ihfp ⟨c, hck, hbc, hp⟩
        · subst hck; exact absurd hbc hb
      · intro hnex
        exact ihfn fun ⟨c, hc, hbc, hp⟩ => hnex ⟨c, Nat.lt_succ_of_lt hc, hbc, hp⟩

/-- Pointwise characterization of a full n-row sprite draw: every row read
is in bounds so the draw succeeds, distinct rows of the draw land on
distinct pixel rows, each pixel hit by a set sprite bit is XORed exactly
once, all other pixels are untouched, and the collision flag is 1 exactly
when some set bit lands on an initially lit pixel. -/
theorem drawRows_spec (mem : Nat → Nat) (base cols rows x y : Nat) (hcols : 8 ≤ cols)
    (n : Nat) (hn : n ≤ rows) (hmem : base + n ≤ 4096) (st : (Nat → Nat) × Nat) :
    ∃ out, drawRows mem base cols rows x y n st = some out ∧
      (∀ idx,
        ((∃ r, r < n ∧ ∃ c, c < 8 ∧ mem (base + r) &&& (0x80 >>> c) ≠ 0 ∧
            idx = (x + c) % cols + ((y + r) % rows) * cols) →
          out.1 idx = st.1 idx ^^^ 1) ∧
        ((¬ ∃ r, r < n ∧ ∃ c, c < 8 ∧ mem (base + r) &&& (0x80 >>> c) ≠ 0 ∧
            idx = (x + c) % cols + ((y + r) % rows) * cols) →
          out.1 idx = st.1 idx)) ∧
      ((∃ r, r < n ∧ ∃ c, c < 8 ∧ mem (base + r) &&& (0x80 >>> c) ≠ 0 ∧
          st.1 ((x + c) % cols + ((y + r) % rows) * cols) = 1) → out.2 = 1) ∧
      ((¬ ∃ r, r < n ∧ ∃ c, c < 8 ∧ mem (base + r) &&& (0x80 >>> c) ≠ 0 ∧
          st.1 ((x + c) % cols + ((y + r) % rows) * cols) = 1) → out.2 = st.2) := by
  revert hn hmem
  induction n with
  | zero =>
    intro hn hmem
    refine ⟨st, rfl, fun idx => ⟨?_, fun _ => rfl⟩, ?_, fun _ => rfl⟩
    · rintro ⟨r, hr, h5⟩; omega
    · rintro ⟨r, hr, h5⟩; omega
  | succ n ih =>
    intro hn hmem
    obtain ⟨out1, hout1, hv1, hf1p, hf1n⟩ := ih (by omega) (by omega)
    have hrowne : ∀ r, r < n → (y + r) % rows ≠ (y + n) % rows := by
      intro r hr heq
      have h5 := add_mod_inj rows y r n (by omega) (by omega) heq
      omega
    have hpixout1 : ∀ c, c < 8 →
        out1.1 ((x + c) % cols + ((y + n) % rows) * cols) =
        st.1 ((x + c) % cols + ((y + n) % rows) * cols) := by
      intro c hc
      refine (hv1 _).2 ?_
      rintro ⟨r, hr, c2, hc2, hb2, heq⟩
      have h5 := pixIdx_inj cols x c2 c ((y + r) % rows) ((y + n) % rows) hcols hc2 hc heq.symm
      exact hrowne r hr h5.2
    obtain ⟨cv, cfp, cfn⟩ := drawCols_spec (mem (base + n)) cols ((y + n) % rows) x hcols 8
      (le_refl 8) out1
    refine ⟨drawCols (mem (base + n)) cols ((y + n) % rows) x 8 out1, ?_, ?_, ?_, ?_⟩
    · rw [drawRows, hout1]
      show (if base + n < 4096
        then some (drawRowPixels (mem (base + n)) cols ((y + n) % rows) x out1)
        else none) = _
      rw [if_pos (by omega : base + n < 4096)]
      rfl
    · intro idx
      constructor
      · rintro ⟨r, hr, c, hc, hbc, hidx⟩
        rcases Nat.lt_succ_iff_lt_or_eq.mp hr with hrn | hrn
        · have hne : ¬ ∃ c2, c2 < 8 ∧ mem (base + n) &&& (0x80 >>> c2) ≠ 0 ∧
              idx = (x + c2) % cols + ((y + n) % rows) * cols := by
            rintro ⟨c2, hc2, hb2, heq⟩
            have h5 := pixIdx_inj cols x c c2 ((y + r) % rows) ((y + n) % rows) hcols hc hc2
              (hidx.symm.trans heq)
            exact hrowne r hrn h5.2
          rw [(cv idx).2 hne]
          exact (hv1 idx).1 ⟨r, hrn, c, hc, hbc, hidx⟩
        · subst hrn
          rw [(cv idx).1 ⟨c, hc, hbc, hidx⟩, hidx, hpixout1 c hc]
      · intro hnex
        have hne : ¬ ∃ c2, c2 < 8 ∧ mem (base + n) &&& (0x80 >>> c2) ≠ 0 ∧
            idx = (x + c2) % cols + ((y + n) % rows) * cols := by
          rintro ⟨c2, hc2, hb2, heq⟩
          exact hnex ⟨n, Nat.lt_succ_self n, c2, hc2, hb2, heq⟩
        rw [(cv idx).2 hne]
        refine (hv1 idx).2 ?_
        rintro ⟨r, hr, c, hc, hbc, hidx⟩
        exact hnex ⟨r, Nat.lt_succ_of_lt hr, c, hc, hbc, hidx⟩
    · rintro ⟨r, hr, c, hc, hbc, hp⟩
      rcases Nat.lt_succ_iff_lt_or_eq.mp hr with hrn | hrn
      · have h6 : out1.2 = 1 := hf1p ⟨r, hrn, c, hc, hbc, hp⟩
        by_cases hq : ∃ c2, c2 < 8 ∧ mem (base + n) &&& (0x80 >>> c2) ≠ 0 ∧
            out1.1 ((x + c2) % cols + ((y + n) % rows) * cols) = 1
        · exact cfp hq
        · rw [cfn hq]; exact h6
      · subst hrn
        exact cfp ⟨c, hc, hbc, by rw [hpixout1 c hc]; exact hp⟩
    · intro hnex
      have hne : ¬ ∃ c2, c2 < 8 ∧ mem (base + n) &&& (0x80 >>> c2) ≠ 0 ∧
          out1.1 ((x + c2) % cols + ((y + n) % rows) * cols) = 1 := by
        rintro ⟨c2, hc2, hb2, hp⟩
        rw [hpixout1 c2 hc2] at hp
        exact hnex ⟨n, Nat.lt_succ_self n, c2, hc2, hb2, hp⟩
      rw [cfn hne]
      refine hf1n ?_
      rintro ⟨r, hr, c, hc, hbc, hp⟩
      exact hnex ⟨r, Nat.lt_succ_of_lt hr, c, hc, hbc, hp⟩

/-- Unfolding of op_dxyn in the n-row case. -/
theorem op_dxyn_pos (s : CPU) (vx vy n : Nat) (hn : n ≠ 0) :
    op_dxyn s vx vy n =
      Option.map
        (fun st : (Nat → Nat) × Nat =>
          { s with vram := st.1, register := updW s.register 0xF st.2 })
        (drawRows s.memory s.i (get_height_width s).2 (get_height_width s).1
          (s.register vx) (s.register vy) n (s.vram, 0)) := by
  simp only [op_dxyn]
  rw [if_neg hn]

/-- Claim C4: for a DRW with 1 to 15 rows whose sprite reads stay in
memory, the pixel addressed by sprite row r and column c is the wrapped
cell ((Vx + c) mod cols, (Vy + r) mod rows) of the active resolution, and
it is XORed exactly when that sprite bit is set and untouched otherwise. -/
theorem drw_wraparound_spec (s : CPU) (vx vy n r c : Nat)
    (hn1 : 1 ≤ n) (hn : n < 16) (hr : r < n) (hc : c < 8)
    (hmem : s.i + n ≤ 4096) :
    ∃ s2, op_dxyn s vx vy n = some s2 ∧
      s2.vram ((s.register vx + c) % (get_height_width s).2 +
          ((s.register vy + r) % (get_height_width s).1) * (get_height_width s).2) =
        if s.memory (s.i + r) &&& (0x80 >>> c) ≠ 0
        then s.vram ((s.register vx + c) % (get_height_width s).2 +
          ((s.register vy + r) % (get_height_width s).1) * (get_height_width s).2) ^^^ 1
        else s.vram ((s.register vx + c) % (get_height_width s).2 +
          ((s.register vy + r) % (get_height_width s).1) * (get_height_width s).2) := by
  have hcols : 8 ≤ (get_height_width s).2 := by
    rw [get_height_width]; split <;> norm_num
  have hrows : 16 ≤ (get_height_width s).1 := by
    rw [get_height_width]; split <;> norm_num
  obtain ⟨out, hout, hv, hfp, hfn⟩ := drawRows_spec s.memory s.i (get_height_width s).2
    (get_height_width s).1 (s.register vx) (s.register vy) hcols n (by omega) hmem
    (s.vram, 0)
  refine ⟨_, by rw [op_dxyn_pos s vx vy n (by omega), hout]; rfl, ?_⟩
  by_cases hbit : s.memory (s.i + r) &&& (0x80 >>> c) ≠ 0
  · rw [if_pos hbit]
    exact (hv ((s.register vx + c) % (get_height_width s).2 +
      ((s.register vy + r) % (get_height_width s).1) * (get_height_width s).2)).1
      ⟨r, hr, c, hc, hbit, rfl⟩
  · rw [if_neg hbit]
    refine (hv ((s.register vx + c) % (get_height_width s).2 +
      ((s.register vy + r) % (get_height_width s).1) * (get_height_width s).2)).2 ?_
    rintro ⟨r2, hr2, c2, hc2, hb2, hidx2⟩
    have h5 := pixIdx_inj (get_height_width s).2 (s.register vx) c c2
      ((s.register vy + r) % (get_height_width s).1)
      ((s.register vy + r2) % (get_height_width s).1) hcols hc hc2 hidx2
    have hreq := add_mod_inj (get_height_width s).1 (s.register vy) r r2
      (by omega) (by omega) h5.2
    rw [← hreq, ← h5.1] at hb2
    exact hbit hb2

theorem drw_wraparound_spec_witness :
    (1 ≤ 1 ∧ (1 : Nat) < 16 ∧ (0 : Nat) < 1 ∧ (1 : Nat) < 8 ∧ cpuDraw.i + 1 ≤ 4096) ∧
    (∃ s2, op_dxyn cpuDraw 0 1 1 = some s2 ∧
      s2.vram ((cpuDraw.register 0 + 1) % (get_height_width cpuDraw).2 +
          ((cpuDraw.register 1 + 0) % (get_height_width cpuDraw).1) *
          (get_height_width cpuDraw).2) =
        if cpuDraw.memory (cpuDraw.i + 0) &&& (0x80 >>> 1) ≠ 0
        then cpuDraw.vram ((cpuDraw.register 0 + 1) % (get_height_width cpuDraw).2 +
          ((cpuDraw.register 1 + 0) % (get_height_width cpuDraw).1) *
          (get_height_width cpuDraw).2) ^^^ 1
        else cpuDraw.vram ((cpuDraw.register 0 + 1) % (get_height_width cpuDraw).2 +
          ((cpuDraw.register 1 + 0) % (get_height_width cpuDraw).1) *
          (get_height_width cpuDraw).2)) :=
  ⟨⟨le_refl 1, by omega, by omega, by omega, by decide⟩,
    drw_wraparound_spec cpuDraw 0 1 1 0 1 (le_refl 1) (by omega) (by omega) (by omega)
      (by decide)⟩


/-- Claim C5: after CLS, drawing the all-ones 8x1 sprite at (0,0) lights
exactly pixels 0..7 of the top row with no collision (VF = 0); repeating
the identical draw clears all eight pixels, leaving the whole buffer zero,
and reports the collision (VF = 1). -/
theorem drw_collision_roundtrip (s : CPU) (vx vy : Nat)
    (h1 : s.register vx = 0) (h2 : s.register vy = 0)
    (h3 : s.memory s.i = 0xFF) (h4 : s.i < 4096) :
    ∃ s1 s2, op_dxyn (op_00e0 s) vx vy 1 = some s1 ∧ op_dxyn s1 vx vy 1 = some s2 ∧
      (∀ idx, s1.vram idx = if idx < 8 then 1 else 0) ∧ s1.register 0xF = 0 ∧
      (∀ idx, s2.vram idx = 0) ∧ s2.register 0xF = 1 := by
  have hcols : 8 ≤ (get_height_width s).2 := by
    rw [get_height_width]; split <;> norm_num
  have hrows : 16 ≤ (get_height_width s).1 := by
    rw [get_height_width]; split <;> norm_num
  have hffbit : ∀ cc, cc < 8 → (0xFF : Nat) &&& (0x80 >>> cc) ≠ 0 := by decide
  have hhit : ∀ idx,
      (∃ rr, rr < 1 ∧ ∃ cc, cc < 8 ∧ s.memory (s.i + rr) &&& (0x80 >>> cc) ≠ 0 ∧
        idx = (0 + cc) % (get_height_width s).2 +
          ((0 + rr) % (get_height_width s).1) * (get_height_width s).2) ↔ idx < 8 := by
    intro idx
    constructor
    · rintro ⟨rr, hrr, cc, hcc, hb, hidx⟩
      have hr0 : rr = 0 := by omega
      subst hr0
      rw [Nat.zero_add, Nat.mod_eq_of_lt (by omega : cc < (get_height_width s).2)] at hidx
      simp only [Nat.add_zero, Nat.zero_add, Nat.zero_mod, Nat.zero_mul] at hidx
      omega
    · intro hidx
      refine ⟨0, by omega, idx, by omega, ?_, ?_⟩
      · rw [Nat.add_zero, h3]
        exact hffbit idx hidx
      · rw [Nat.zero_add, Nat.mod_eq_of_lt (by omega : idx < (get_height_width s).2)]
        simp only [Nat.add_zero, Nat.zero_add, Nat.zero_mod, Nat.zero_mul]
  obtain ⟨out1, hout1, hv1, hf1p, hf1n⟩ := drawRows_spec s.memory s.i
    (get_height_width s).2 (get_height_width s).1 0 0 hcols 1 (by omega) (by omega)
    ((fun _ => 0), 0)
  have hvram1 : ∀ idx, out1.1 idx = if idx < 8 then 1 else 0 := by
    intro idx
    by_cases hidx : idx < 8
    · rw [if_pos hidx, (hv1 idx).1 ((hhit idx).mpr hidx)]
      show (0 : Nat) ^^^ 1 = 1
      exact Nat.zero_xor 1
    · rw [if_neg hidx]
      exact (hv1 idx).2 fun hex => hidx ((hhit idx).mp hex)
  have hflag1 : out1.2 = 0 := by
    refine hf1n ?_
    rintro ⟨rr, hrr, cc, hcc, hb, hp⟩
    exact Nat.zero_ne_one hp
  have e1 : op_dxyn (op_00e0 s) vx vy 1 = some
      { op_00e0 s with
        vram := out1.1
        register := updW (op_00e0 s).register 0xF out1.2 } := by
    rw [op_dxyn_pos (op_00e0 s) vx vy 1 one_ne_zero]
    have hreg1 : (op_00e0 s).register vx = 0 := h1
    have hreg2 : (op_00e0 s).register vy = 0 := h2
    rw [hreg1, hreg2]
    show Option.map (fun st : (Nat → Nat) × Nat =>
        { op_00e0 s with
          vram := st.1
          register := updW (op_00e0 s).register 0xF st.2 })
      (drawRows s.memory s.i (get_height_width s).2 (get_height_width s).1 0 0 1
        ((fun _ => 0), 0)) = _
    rw [hout1]
    rfl
  have hvx2 : updW (op_00e0 s).register 0xF out1.2 vx = 0 := by
    simp only [updW]
    split
    · exact hflag1
    · exact h1
  have hvy2 : updW (op_00e0 s).register 0xF out1.2 vy = 0 := by
    simp only [updW]
    split
    · exact hflag1
    · exact h2
  obtain ⟨out2, hout2, hv2, hf2p, hf2n⟩ := drawRows_spec s.memory s.i
    (get_height_width s).2 (get_height_width s).1 0 0 hcols 1 (by omega) (by omega)
    (out1.1, 0)
  have hvram2 : ∀ idx, out2.1 idx = 0 := by
    intro idx
    by_cases hidx : idx < 8
    · rw [(hv2 idx).1 ((hhit idx).mpr hidx)]
      show out1.1 idx ^^^ 1 = 0
      rw [hvram1 idx, if_pos hidx]
      exact Nat.xor_self 1
    · rw [(hv2 idx).2 fun hex => hidx ((hhit idx).mp hex)]
      show out1.1 idx = 0
      rw [hvram1 idx, if_neg hidx]
  have hflag2 : out2.2 = 1 := by
    refine hf2p ⟨0, by omega, 0, by omega, ?_, ?_⟩
    · rw [Nat.add_zero, h3]
      decide
    · show out1.1 ((0 + 0) % (get_height_width s).2 +
        ((0 + 0) % (get_height_width s).1) * (get_height_width s).2) = 1
      simp only [Nat.add_zero, Nat.zero_add, Nat.zero_mod, Nat.zero_mul]
      rw [hvram1 0, if_pos (by omega)]
  have e2 : op_dxyn
      { op_00e0 s with
        vram := out1.1
        register := updW (op_00e0 s).register 0xF out1.2 } vx vy 1 = some
      { op_00e0 s with
        vram := out2.1
        register := updW (updW (op_00e0 s).register 0xF out1.2) 0xF out2.2 } := by
    rw [op_dxyn_pos _ vx vy 1 one_ne_zero]
    rw [show ({ op_00e0 s with
        vram := out1.1
        register := updW (op_00e0 s).register 0xF out1.2 } : CPU).register vx = 0
      from hvx2]
    rw [show ({ op_00e0 s with
        vram := out1.1
        register := updW (op_00e0 s).register 0xF out1.2 } : CPU).register vy = 0
      from hvy2]
    show Option.map (fun st : (Nat → Nat) × Nat =>
        { op_00e0 s with
          vram := st.1
          register := updW (updW (op_00e0 s).register 0xF out1.2) 0xF st.2 })
      (drawRows s.memory s.i (get_height_width s).2 (get_height_width s).1 0 0 1
        (out1.1, 0)) = _
    rw [hout2]
    rfl
  refine ⟨_, _, e1, e2, fun idx => hvram1 idx, ?_, fun idx => hvram2 idx, ?_⟩
  · show updW (op_00e0 s).register 0xF out1.2 0xF = 0
    rw [updW, if_pos rfl]
    exact hflag1
  · show updW (updW (op_00e0 s).register 0xF out1.2) 0xF out2.2 0xF = 1
    rw [updW, if_pos rfl]
    exact hflag2

theorem drw_collision_roundtrip_witness :
    cpuFill.register 0 = 0 ∧ cpuFill.register 1 = 0 ∧
    cpuFill.memory cpuFill.i = 0xFF ∧ cpuFill.i < 4096 ∧
    (∃ s1 s2, op_dxyn (op_00e0 cpuFill) 0 1 1 = some s1 ∧ op_dxyn s1 0 1 1 = some s2 ∧
      (∀ idx, s1.vram idx = if idx < 8 then 1 else 0) ∧ s1.register 0xF = 0 ∧
      (∀ idx, s2.vram idx = 0) ∧ s2.register 0xF = 1) :=
  ⟨rfl, rfl, rfl, by decide,
    drw_collision_roundtrip cpuFill 0 1 rfl rfl rfl (by decide)⟩
